import Mathlib

/-!
Shallow embedding of the authorization subsystem of the icm-services relayer:
the canonical validator client (peers/validators/canonical_validator_client.go),
the quorum evaluator and admission filter described by the design document, and
the app-request network metrics constructor (package peers).

Upstream RPC calls (the platformvm client, the avalanchego warp aggregation,
the prometheus registry) are modelled as oracle fields of the client record:
each field holds the response the upstream would give, so the embedded methods
are pure functions of the client state, exactly mirroring the Go control flow
on those responses.
-/

namespace ICM

/-- Errors an upstream platformvm RPC can report. The Go code distinguishes
only whether the error is the method-not-supported condition, so the
embedding carries that one distinguished constructor plus opaque others. -/
inductive UpstreamError where
  | methodUnsupported
  | other (msg : String)
deriving DecidableEq, Repr

/-- validators.GetValidatorOutput: one entry of the height-scoped validator
map returned by the getValidatorsAt RPC (node id, optional BLS key, weight). -/
structure GetValidatorOutput where
  nodeID : Nat
  publicKey : Option Nat
  weight : Nat
deriving DecidableEq, Repr

/-- avalancheWarp.Validator: one member of the canonical validator set
(attestation public key and aggregated stake weight). -/
structure WarpValidator where
  publicKey : Nat
  weight : Nat
deriving DecidableEq, Repr

/-- platformvm.Client: the upstream P-chain RPC client, modelled by the
responses each of its methods would return. `getHeight` backs both
GetMinimumHeight and GetCurrentHeight; `validatedBy` backs GetSubnetID;
`getValidatorsAt` (indexed by subnetID then height) backs GetValidatorSet;
`getCurrentValidators` is the height-agnostic query the fallback would use;
`canonicalAtProposedHeight` is the response of the warp canonical-set
aggregation at the chain's most-recently-proposed reference height. -/
structure PlatformClient where
  getHeight : Except UpstreamError Nat
  validatedBy : Nat → Except UpstreamError Nat
  getValidatorsAt : Nat → Nat → Except UpstreamError (List GetValidatorOutput)
  getCurrentValidators : Nat → Except UpstreamError (List GetValidatorOutput)
  canonicalAtProposedHeight : Nat → Except UpstreamError (List WarpValidator)

/-- CanonicalValidatorClient wraps platformvm.Client and implements
validators.State (canonical_validator_client.go lines 24-29; the logger and
rpc options do not affect returned values and are omitted). -/
structure CanonicalValidatorClient where
  client : PlatformClient

/-- Modelled from the spec: the avalanchego warp library function
GetCanonicalValidatorSet is not part of this repository; per the design
document the resolver "queries the canonical validator set and total weight"
with the invariant "totalWeight equals the sum of all member weights", so the
modelled aggregation returns the upstream member list together with the sum
of member weights, and propagates upstream failure unchanged. -/
def warpGetCanonicalValidatorSet
    (raw : Except UpstreamError (List WarpValidator)) :
    Except UpstreamError (List WarpValidator × Nat) :=
  match raw with
  | Except.error e => Except.error e
  | Except.ok vdrs => Except.ok (vdrs, (vdrs.map fun v => v.weight).sum)

/-- GetCurrentCanonicalValidatorSet (canonical_validator_client.go lines
41-61): queries the canonical validator set of the subnet at the proposed
reference height; on error returns (nil, 0, err), otherwise the upstream
list and total weight unchanged with no error. -/
def GetCurrentCanonicalValidatorSet (v : CanonicalValidatorClient)
    (subnetID : Nat) : List WarpValidator × Nat × Option UpstreamError :=
  match warpGetCanonicalValidatorSet (v.client.canonicalAtProposedHeight subnetID) with
  | Except.error e => ([], 0, some e)
  | Except.ok (vdrs, w) => (vdrs, w, none)

/-- GetMinimumHeight (canonical_validator_client.go lines 63-65): returns
v.client.GetHeight. -/
def GetMinimumHeight (v : CanonicalValidatorClient) : Except UpstreamError Nat :=
  v.client.getHeight

/-- GetCurrentHeight (canonical_validator_client.go lines 67-69): returns
v.client.GetHeight. -/
def GetCurrentHeight (v : CanonicalValidatorClient) : Except UpstreamError Nat :=
  v.client.getHeight

/-- GetSubnetID (canonical_validator_client.go lines 71-73): returns
v.client.ValidatedBy for the blockchain id. -/
def GetSubnetID (v : CanonicalValidatorClient) (blockchainID : Nat) :
    Except UpstreamError Nat :=
  v.client.validatedBy blockchainID

/-- GetCurrentValidatorSet (canonical_validator_client.go lines 77-82): the
exported interface method ignores both arguments and returns (nil, 0, nil). -/
def GetCurrentValidatorSet (v : CanonicalValidatorClient) (subnetID : Nat) :
    List (Nat × GetValidatorOutput) × Nat × Option UpstreamError :=
  ([], 0, none)

/-- GetValidatorSet (canonical_validator_client.go lines 87-104): issues the
height-scoped getValidatorsAt query; if that returns an error, the code logs
a debug line and returns (nil, err) — it performs no further query — and on
success returns the result unchanged. -/
def GetValidatorSet (v : CanonicalValidatorClient) (height : Nat)
    (subnetID : Nat) : Except UpstreamError (List GetValidatorOutput) :=
  match v.client.getValidatorsAt subnetID height with
  | Except.error e => Except.error e
  | Except.ok res => Except.ok res

end ICM

namespace ICM

/-- A concrete client used to evaluate the embedded methods on explicit
upstream responses: the height-scoped query reports methodUnsupported while
the height-agnostic fallback query would succeed with one validator. -/
def unsupportedClient : CanonicalValidatorClient :=
  { client :=
    { getHeight := Except.ok 7
      validatedBy := fun _ => Except.ok 5
      getValidatorsAt := fun _ _ => Except.error UpstreamError.methodUnsupported
      getCurrentValidators := fun _ => Except.ok [⟨1, some 10, 40⟩]
      canonicalAtProposedHeight := fun _ => Except.ok [⟨10, 40⟩] } }

/-- A concrete client whose height-scoped query fails with a generic
(non-methodUnsupported) upstream error. -/
def timeoutClient : CanonicalValidatorClient :=
  { client :=
    { getHeight := Except.ok 7
      validatedBy := fun _ => Except.ok 5
      getValidatorsAt := fun _ _ => Except.error (UpstreamError.other "timeout")
      getCurrentValidators := fun _ => Except.ok [⟨1, some 10, 40⟩]
      canonicalAtProposedHeight := fun _ => Except.ok [⟨10, 40⟩] } }

/-- C1: the claim says that when the height-scoped query fails with
methodUnsupported, GetValidatorSet falls back to the height-agnostic current
validators query and never surfaces methodUnsupported. Evaluating the code
at such an input: even though the fallback query would succeed with a
non-empty validator list, GetValidatorSet returns the methodUnsupported
error itself and not the fallback result. -/
theorem getValidatorSet_surfaces_methodUnsupported :
    GetValidatorSet unsupportedClient 3 9
      = Except.error UpstreamError.methodUnsupported
    ∧ unsupportedClient.client.getCurrentValidators 9
      = Except.ok [⟨1, some 10, 40⟩] := by
  constructor
  · rfl
  · rfl

/-- C2: whenever the height-scoped getValidatorsAt query fails with any
error other than methodUnsupported, GetValidatorSet returns that upstream
error unchanged and issues no fallback query in its place. -/
theorem getValidatorSet_other_error_unchanged
    (v : CanonicalValidatorClient) (height subnetID : Nat) (e : UpstreamError)
    (hq : v.client.getValidatorsAt subnetID height = Except.error e)
    (hne : e ≠ UpstreamError.methodUnsupported) :
    GetValidatorSet v height subnetID = Except.error e := by
  unfold GetValidatorSet
  rw [hq]

/-- Witness for C2 at the concrete timeout client. -/
theorem getValidatorSet_other_error_unchanged_witness :
    GetValidatorSet timeoutClient 3 9
      = Except.error (UpstreamError.other "timeout") :=
  getValidatorSet_other_error_unchanged timeoutClient 3 9
    (UpstreamError.other "timeout") rfl (by decide)

/-- C3: every ValidatorSet produced by GetCurrentCanonicalValidatorSet has a
total weight equal to the sum of the stake weights of the validators in the
returned set. The warp aggregation is modelled from the spec; on upstream
failure the method returns the empty set with total weight 0, for which the
invariant also holds. -/
theorem getCurrentCanonicalValidatorSet_totalWeight_eq_sum
    (v : CanonicalValidatorClient) (subnetID : Nat) :
    (GetCurrentCanonicalValidatorSet v subnetID).2.1
      = ((GetCurrentCanonicalValidatorSet v subnetID).1.map
          fun x => x.weight).sum := by
  unfold GetCurrentCanonicalValidatorSet warpGetCanonicalValidatorSet
  cases v.client.canonicalAtProposedHeight subnetID with
  | error e => simp
  | ok vdrs => simp

/-- C6: GetCurrentCanonicalValidatorSet queries the canonical validator set
as of the proposed reference height; on success it returns the upstream
validator list and total weight unchanged with no error, and on any upstream
failure it returns (nil, 0) together with that error. -/
theorem getCurrentCanonicalValidatorSet_passes_through
    (v : CanonicalValidatorClient) (subnetID : Nat) :
    (∀ vdrs w,
      warpGetCanonicalValidatorSet (v.client.canonicalAtProposedHeight subnetID)
        = Except.ok (vdrs, w) →
      GetCurrentCanonicalValidatorSet v subnetID = (vdrs, w, none))
    ∧ (∀ e,
      warpGetCanonicalValidatorSet (v.client.canonicalAtProposedHeight subnetID)
        = Except.error e →
      GetCurrentCanonicalValidatorSet v subnetID = ([], 0, some e)) := by
  constructor
  · intro vdrs w hok
    unfold GetCurrentCanonicalValidatorSet
    rw [hok]
  · intro e herr
    unfold GetCurrentCanonicalValidatorSet
    rw [herr]

/-- A concrete client whose canonical-set query at the proposed height fails
with a generic upstream error. -/
def canonicalErrClient : CanonicalValidatorClient :=
  { client :=
    { getHeight := Except.ok 7
      validatedBy := fun _ => Except.ok 5
      getValidatorsAt := fun _ _ => Except.ok []
      getCurrentValidators := fun _ => Except.ok []
      canonicalAtProposedHeight := fun _ =>
        Except.error (UpstreamError.other "unreachable") } }

/-- Witness for C6: the success branch at the concrete unsupportedClient
(whose canonical-set query yields one validator of weight 40) and the error
branch at canonicalErrClient, both by applying the theorem. -/
theorem getCurrentCanonicalValidatorSet_passes_through_witness :
    GetCurrentCanonicalValidatorSet unsupportedClient 9 = ([⟨10, 40⟩], 40, none)
    ∧ GetCurrentCanonicalValidatorSet canonicalErrClient 9
        = ([], 0, some (UpstreamError.other "unreachable")) :=
  ⟨(getCurrentCanonicalValidatorSet_passes_through unsupportedClient 9).1
      [⟨10, 40⟩] 40 rfl,
   (getCurrentCanonicalValidatorSet_passes_through canonicalErrClient 9).2
      (UpstreamError.other "unreachable") rfl⟩

/-- C7: GetSubnetID returns exactly the result of the upstream validatedBy
query for the given blockchain id, value or error unchanged. -/
theorem getSubnetID_is_validatedBy
    (v : CanonicalValidatorClient) (blockchainID : Nat) :
    GetSubnetID v blockchainID = v.client.validatedBy blockchainID :=
  rfl

/-- C8: GetCurrentHeight and GetMinimumHeight are both thin passthroughs to
the same height oracle query of the underlying client, so on the same client
state they return the same result. -/
theorem getMinimumHeight_eq_getCurrentHeight (v : CanonicalValidatorClient) :
    GetMinimumHeight v = GetCurrentHeight v
    ∧ GetMinimumHeight v = v.client.getHeight
    ∧ GetCurrentHeight v = v.client.getHeight :=
  ⟨rfl, rfl, rfl⟩

/-- C9: the exported interface method GetCurrentValidatorSet is a stub that
returns (nil, 0, nil) for every client and subnet, performing no query. -/
theorem getCurrentValidatorSet_is_stub
    (v : CanonicalValidatorClient) (subnetID : Nat) :
    GetCurrentValidatorSet v subnetID = ([], 0, none) :=
  rfl

/-- ValidatorSet of the design document: members carry an identity and a
stake weight; totalWeight is carried alongside the member list. -/
structure ValidatorSet where
  validators : List (Nat × Nat)
  totalWeight : Nat
deriving DecidableEq, Repr

/-- QuorumRequirement: the configured threshold fraction, held exactly as a
numerator over a denominator (e.g. 67 over 100 for a 0.67 fraction). -/
structure QuorumRequirement where
  num : Nat
  den : Nat
deriving DecidableEq, Repr

/-- Stake weight accumulated by an attestation collection against a
validator set: the sum of stakeWeight over validators present in both. -/
def signedWeight (vs : ValidatorSet) (attestations : List Nat) : Nat :=
  ((vs.validators.filter fun p => attestations.contains p.1).map
    fun p => p.2).sum

/-- Modelled from the spec: hasQuorum is part of the quorum evaluator, which
is not among the provided source files. Per the design document it "sums
stakeWeight over validators present in both the set and the attestation
collection; returns true iff that sum is at least requirement.fraction times
validatorSet.totalWeight", the boundary of exactly the fraction counting as
quorum. With the fraction num over den, the comparison is the exact integer
inequality den * sum at least num * totalWeight. -/
def hasQuorum (vs : ValidatorSet) (attestations : List Nat)
    (req : QuorumRequirement) : Bool :=
  decide (req.num * vs.totalWeight ≤ req.den * signedWeight vs attestations)

/-- The scenario set of the design document: four validators of weights
40, 30, 20 and 10, total weight 100. -/
def scenarioSet : ValidatorSet :=
  { validators := [(1, 40), (2, 30), (3, 20), (4, 10)], totalWeight := 100 }

/-- C4: hasQuorum returns true iff the stake weight of validators present in
both the set and the attestation collection is at least the requirement
fraction of the total weight (boundary inclusive); in the scenario of four
validators of weights 40, 30, 20, 10 and fraction 67 over 100, attestations
from the 40- and 30-weight validators yield true and attestations from the
40- and 20-weight validators yield false. -/
theorem hasQuorum_iff_threshold :
    (∀ (vs : ValidatorSet) (attestations : List Nat) (req : QuorumRequirement),
      hasQuorum vs attestations req = true
        ↔ req.num * vs.totalWeight ≤ req.den * signedWeight vs attestations)
    ∧ hasQuorum scenarioSet [1, 2] ⟨67, 100⟩ = true
    ∧ hasQuorum scenarioSet [1, 3] ⟨67, 100⟩ = false := by
  refine ⟨fun vs attestations req => ?_, by decide, by decide⟩
  simp [hasQuorum]

/-- Witness for C4: the general threshold characterization applied at the
scenario set, the 40- and 30-weight attestations and the 67-over-100
fraction. -/
theorem hasQuorum_iff_threshold_witness :
    67 * scenarioSet.totalWeight ≤ 100 * signedWeight scenarioSet [1, 2] :=
  (hasQuorum_iff_threshold.1 scenarioSet [1, 2] ⟨67, 100⟩).mp
    hasQuorum_iff_threshold.2.1

/-- An allow-list: either the wildcard, admitting any address, or an
explicit list of admitted addresses. -/
inductive AllowPolicy where
  | wildcard
  | explicitList (addrs : List String)
deriving DecidableEq, Repr

/-- RelayerInstanceConfig of the design document: per source chain the
allowed origin-sender policy, per destination chain the allowed destination
policy. -/
structure RelayerInstanceConfig where
  sourceChains : List (String × AllowPolicy)
  destinationChains : List (String × AllowPolicy)
deriving DecidableEq, Repr

/-- ObservedMessage of the design document, restricted to the fields the
admission filter reads. -/
structure ObservedMessage where
  sourceChain : String
  originSenderAddress : String
  destinationChain : String
  destinationAddress : String
deriving DecidableEq, Repr

/-- Whether a policy admits an address: the wildcard admits any address, an
explicit list only its members. -/
def allows (p : AllowPolicy) (addr : String) : Bool :=
  match p with
  | AllowPolicy.wildcard => true
  | AllowPolicy.explicitList addrs => addrs.contains addr

/-- The policy a chain list configures for a chain, if the chain is present. -/
def chainPolicy (chains : List (String × AllowPolicy)) (chain : String) :
    Option AllowPolicy :=
  (chains.find? fun p => p.1 == chain).map fun p => p.2

/-- The source-side admission check: the message's source chain must be
configured and its policy must admit the origin sender address. -/
def sourceAllowed (cfg : RelayerInstanceConfig) (m : ObservedMessage) : Bool :=
  match chainPolicy cfg.sourceChains m.sourceChain with
  | none => false
  | some p => allows p m.originSenderAddress

/-- The destination-side admission check: the message's destination chain
must be configured and its policy must admit the destination address. -/
def destinationAllowed (cfg : RelayerInstanceConfig) (m : ObservedMessage) :
    Bool :=
  match chainPolicy cfg.destinationChains m.destinationChain with
  | none => false
  | some p => allows p m.destinationAddress

/-- Modelled from the spec: isAdmitted is part of the admission filter,
which is not among the provided source files (only its end-to-end test,
AllowedAddresses, is). Per the design document a message is admitted iff its
source chain is configured and that chain's allowed origin senders policy is
the wildcard or contains the origin sender address, and symmetrically its
destination chain is configured and that chain's allowed destinations policy
is the wildcard or contains the destination address. -/
def isAdmitted (cfg : RelayerInstanceConfig) (m : ObservedMessage) : Bool :=
  sourceAllowed cfg m && destinationAllowed cfg m

/-- C5: a message whose origin sender is outside an explicit (non-wildcard)
source allow-list is never admitted regardless of destination; a message
whose destination address is outside an explicit destination allow-list is
never admitted regardless of sender; and a wildcard on a side makes that
side's check admit any address. -/
theorem isAdmitted_allowlists
    (cfg : RelayerInstanceConfig) (m : ObservedMessage) :
    (∀ addrs, chainPolicy cfg.sourceChains m.sourceChain
        = some (AllowPolicy.explicitList addrs) →
      addrs.contains m.originSenderAddress = false →
      isAdmitted cfg m = false)
    ∧ (∀ addrs, chainPolicy cfg.destinationChains m.destinationChain
        = some (AllowPolicy.explicitList addrs) →
      addrs.contains m.destinationAddress = false →
      isAdmitted cfg m = false)
    ∧ (chainPolicy cfg.sourceChains m.sourceChain = some AllowPolicy.wildcard →
      sourceAllowed cfg m = true)
    ∧ (chainPolicy cfg.destinationChains m.destinationChain
        = some AllowPolicy.wildcard →
      destinationAllowed cfg m = true) := by
  refine ⟨fun addrs hp hout => ?_, fun addrs hp hout => ?_,
    fun hp => ?_, fun hp => ?_⟩
  · have hmem : m.originSenderAddress ∉ addrs := by simpa using hout
    simp [isAdmitted, sourceAllowed, hp, allows, hmem]
  · have hmem : m.destinationAddress ∉ addrs := by simpa using hout
    simp [isAdmitted, destinationAllowed, hp, allows, hmem]
  · simp [sourceAllowed, hp, allows]
  · simp [destinationAllowed, hp, allows]

/-- The scenario configuration of the design document: the source chain "A"
allows only the origin sender 0xAAA, the destination chain "B" has the
wildcard destination policy. -/
def scenarioConfig : RelayerInstanceConfig :=
  { sourceChains := [("A", AllowPolicy.explicitList ["0xAAA"])]
    destinationChains := [("B", AllowPolicy.wildcard)] }

/-- Witness for C5 at the scenario configuration: a message from 0xBBB is
rejected by the explicit source allow-list, and the wildcard destination
side admits any destination address. -/
theorem isAdmitted_allowlists_witness :
    isAdmitted scenarioConfig ⟨"A", "0xBBB", "B", "0xCCC"⟩ = false
    ∧ destinationAllowed scenarioConfig ⟨"A", "0xAAA", "B", "0xCCC"⟩ = true :=
  ⟨(isAdmitted_allowlists scenarioConfig ⟨"A", "0xBBB", "B", "0xCCC"⟩).1
      ["0xAAA"] rfl (by decide),
   (isAdmitted_allowlists scenarioConfig ⟨"A", "0xAAA", "B", "0xCCC"⟩).2.2.2
      rfl⟩

/-- prometheus.GaugeOpts, restricted to the fields the constructor sets. -/
structure GaugeOpts where
  name : String
  help : String
deriving DecidableEq, Repr

/-- A prometheus gauge vector value: the options and label names it was
built from. -/
structure GaugeVec where
  opts : GaugeOpts
  labelNames : List String
deriving DecidableEq, Repr

/-- prometheus.NewGaugeVec returns the address of a freshly allocated
GaugeVec struct literal, which in Go is never nil; a nil result is modelled
as none and can therefore never arise. -/
def NewGaugeVec (opts : GaugeOpts) (labelNames : List String) :
    Option GaugeVec :=
  some { opts := opts, labelNames := labelNames }

/-- config.APIConfig, restricted to the base URL the constructor reads. -/
structure APIConfig where
  baseURL : String
deriving DecidableEq, Repr

/-- config.Config, restricted to the fields the constructor reads. -/
structure Config where
  infoAPI : APIConfig
  pChainAPI : APIConfig
deriving DecidableEq, Repr

/-- The one error value of the metrics package:
ErrFailedToCreateAppRequestNetworkMetrics. -/
inductive MetricsError where
  | failedToCreateAppRequestNetworkMetrics
deriving DecidableEq, Repr

/-- AppRequestNetworkMetrics (package peers): the two API base URLs and the
two latency gauge vectors. -/
structure AppRequestNetworkMetrics where
  infoAPIBaseURL : String
  pChainAPIBaseURL : String
  infoAPICallLatencyMS : GaugeVec
  pChainAPICallLatencyMS : GaugeVec
deriving DecidableEq, Repr

/-- NewAppRequestNetworkMetrics (src/unnamed/part_000 lines 464-495): builds
the two gauge vectors, returning the package error if either came back nil,
and otherwise the populated metrics struct with a nil error. MustRegister
either succeeds without affecting the return value or panics; the embedding
covers the non-panicking executions the claim is about. -/
def NewAppRequestNetworkMetrics (cfg : Config) :
    Except MetricsError AppRequestNetworkMetrics :=
  match NewGaugeVec
      ⟨"info_api_call_latency_ms", "Latency of calling info api in milliseconds"⟩
      ["info_api_base_url"] with
  | none => Except.error MetricsError.failedToCreateAppRequestNetworkMetrics
  | some infoGauge =>
    match NewGaugeVec
        ⟨"p_chain_api_call_latency_ms", "Latency of calling p-chain rpc in milliseconds"⟩
        ["p_chain_api_base_url"] with
    | none => Except.error MetricsError.failedToCreateAppRequestNetworkMetrics
    | some pChainGauge =>
      Except.ok
        { infoAPIBaseURL := cfg.infoAPI.baseURL
          pChainAPIBaseURL := cfg.pChainAPI.baseURL
          infoAPICallLatencyMS := infoGauge
          pChainAPICallLatencyMS := pChainGauge }

/-- C10: NewAppRequestNetworkMetrics never returns
ErrFailedToCreateAppRequestNetworkMetrics: the gauge constructor always
yields a value, so both nil-check branches are unreachable and for every
configuration the function returns a metrics struct and no error. -/
theorem newAppRequestNetworkMetrics_never_fails (cfg : Config) :
    ∃ m, NewAppRequestNetworkMetrics cfg = Except.ok m
      ∧ m.infoAPIBaseURL = cfg.infoAPI.baseURL
      ∧ m.pChainAPIBaseURL = cfg.pChainAPI.baseURL := by
  refine ⟨_, rfl, rfl, rfl⟩

end ICM
